import Mathlib

/-!
Verification of the purchase-order extraction core of
src/extract_headers_and_lines.py.

Embedding conventions:
- Python values flowing through the extraction core are modelled by the
  mutually inductive type Value (scalars, lists, dicts). A Python dict is a
  VDict: an insertion-ordered association list, as Python dicts preserve
  insertion order. A Python list is a VList.
- Python dict assignment (d[k] = v) is aInsert: it overwrites the first
  binding of k in place, otherwise appends at the end, matching Python dict
  update semantics. dict.update is aUpdate. dict.get is aGet? / aGetD.
- Python truthiness (if not x, x or y) is the function truthy.
- Functions that can raise a Python exception (AttributeError on calling
  .get / .items on a non-dict) return Except String; pure total functions
  return plain values.
- pandas DataFrames are represented by their row contents: a one-row frame
  (pd.DataFrame with a single record) by that record as a VDict, a multi-row
  frame by the List VDict of its rows, in order. print calls are side
  effects with no influence on results and are not modelled.
- Reading a file and parsing it with ast.literal_eval (Python standard
  library, an external collaborator of this module) is modelled by handing
  the loader the parse result directly: some v for a successful parse of the
  literal structure v, Option.none for a parse failure (the situation in
  which ast.literal_eval raises).
-/

mutual
inductive Value where
  | none : Value
  | bool : Bool → Value
  | int  : Int → Value
  | str  : String → Value
  | list : VList → Value
  | dict : VDict → Value
deriving Repr
inductive VList where
  | nil : VList
  | cons : Value → VList → VList
deriving Repr
inductive VDict where
  | nil : VDict
  | cons : String → Value → VDict → VDict
deriving Repr
end

/-- Builds a VDict from a Lean list of key/value pairs (notation helper). -/
def VDict.ofList : List (String × Value) → VDict
  | [] => .nil
  | (k, v) :: r => .cons k v (VDict.ofList r)

/-- Builds a VList from a Lean list of values (notation helper). -/
def VList.ofList : List Value → VList
  | [] => .nil
  | v :: r => .cons v (VList.ofList r)

def VList.toList : VList → List Value
  | .nil => []
  | .cons v r => v :: VList.toList r

def VList.length : VList → Nat
  | .nil => 0
  | .cons _ r => VList.length r + 1

def VDict.isEmpty : VDict → Bool
  | .nil => true
  | .cons _ _ _ => false

def VList.isEmpty : VList → Bool
  | .nil => true
  | .cons _ _ => false

/-- Python d.get(k): the value of the first binding of k, if any. -/
def aGet? : VDict → String → Option Value
  | .nil, _ => Option.none
  | .cons k' v rest, k => if k' = k then some v else aGet? rest k

/-- Python d.get(k, default). -/
def aGetD (m : VDict) (k : String) (d : Value) : Value := (aGet? m k).getD d

/-- Python (k in d). -/
def hasKey (m : VDict) (k : String) : Bool := (aGet? m k).isSome

/-- Python d[k] = v: overwrite the first binding in place or append. -/
def aInsert : VDict → String → Value → VDict
  | .nil, k, v => .cons k v .nil
  | .cons k' v' rest, k, v =>
    if k' = k then .cons k v rest else .cons k' v' (aInsert rest k v)

/-- Python d.update(other): insert the bindings of other in order. -/
def aUpdate : VDict → VDict → VDict
  | m, .nil => m
  | m, .cons k v rest => aUpdate (aInsert m k v) rest

/-- The keys of a dict, in order (Python d.keys()). -/
def vkeys : VDict → List String
  | .nil => []
  | .cons k _ rest => k :: vkeys rest

/-- Python truthiness of a value. -/
def truthy : Value → Bool
  | .none => false
  | .bool b => b
  | .int n => n != 0
  | .str s => s != ""
  | .list l => !l.isEmpty
  | .dict d => !d.isEmpty

/-- Python s.startswith(p). -/
def pyStartsWith (s p : String) : Bool := p.data.isPrefixOf s.data

/-- Scan of Python page_key.replace("page_", ""): delete every
occurrence of the five characters p a g e _ left to right. -/
def removePage : List Char → List Char
  | [] => []
  | 'p' :: 'a' :: 'g' :: 'e' :: '_' :: rest2 => removePage rest2
  | c :: rest => c :: removePage rest

/-- Python page_key.replace("page_", ""). -/
def pyReplacePage (k : String) : String := String.mk (removePage k.data)

/-- extract_values_only, lines 8-34: the loop body threading the dict
flat through the iteration over data.items(). The third argument is the
dict built so far. -/
def extract_values_only_go : VDict → String → VDict → VDict
  | .nil, _, flat => flat
  | .cons key val rest, pre, flat =>
    let newKey := if pre = "" then key else pre ++ "." ++ key
    let flat1 : VDict :=
      match val with
      | .dict d =>
        if hasKey d "value" then aInsert flat newKey (aGetD d "value" (.str ""))
        else aUpdate flat (extract_values_only_go d newKey .nil)
      | v => aInsert flat newKey v
    extract_values_only_go rest pre flat1

/-- extract_values_only(data, prefix=""), lines 8-34. -/
def extract_values_only (data : VDict) (pre : String := "") : VDict :=
  extract_values_only_go data pre .nil

/-- The page filter of lines 48 and 88:
pages = (k, v) for k, v in llm_json.items() if k.startswith("page_"). -/
def pagesOf : VDict → VDict
  | .nil => .nil
  | .cons k v rest =>
    if pyStartsWith k "page_" then .cons k v (pagesOf rest) else pagesOf rest

/-- Python string comparison: lexicographic on code points. -/
def strLtb : List Char → List Char → Bool
  | [], [] => false
  | [], _ :: _ => true
  | _ :: _, [] => false
  | a :: as, b :: bs => if a < b then true else if b < a then false else strLtb as bs

/-- Python s < t on strings. -/
def pyStrLt (s t : String) : Bool := strLtb s.data t.data

/-- sorted(keys)[0] for a nonempty list of keys: the lexicographically
smallest string (line 51). Returns "" on an empty list (never reached). -/
def minKey : List String → String
  | [] => ""
  | k :: rest => rest.foldl (fun a b => if pyStrLt b a then b else a) k

/-- Lines 56-72: the header record built from the flattened priority
fields, one values.get(path, "") per named field. -/
def headerFromValues (values : VDict) : VDict :=
  VDict.ofList
    [("po_number", aGetD values "po_number" (.str "")),
     ("po_date", aGetD values "po_date" (.str "")),
     ("due_date", aGetD values "due_date" (.str "")),
     ("buyer_info", aGetD values "customer_details.buyer_info" (.str "")),
     ("bill_to", aGetD values "customer_details.bill_to" (.str "")),
     ("vendor_id", aGetD values "vendor_details.vendor_id" (.str "")),
     ("name", aGetD values "vendor_details.name" (.str "")),
     ("address", aGetD values "vendor_details.address" (.str "")),
     ("contact", aGetD values "vendor_details.contact" (.str "")),
     ("ship_to", aGetD values "shipping_details.ship_to" (.str "")),
     ("ship_from", aGetD values "shipping_details.ship_from" (.str "")),
     ("ship_date", aGetD values "shipping_details.ship_date" (.str "")),
     ("ship_via", aGetD values "shipping_details.ship_via" (.str "")),
     ("shipping_instruction", aGetD values "shipping_details.shipping_instruction" (.str "")),
     ("total_amount", aGetD values "order_summary.total_amount" (.str ""))]

/-- Lines 52-73 applied to the selected first page: priority_fields =
first_page.get("priority_fields") or then flatten and project. Calling
.get on a non-dict page, or iterating .items() of a truthy non-dict
priority_fields, raises AttributeError in Python. -/
def headerFromPage (first_page : Value) : Except String VDict :=
  match first_page with
  | .dict pd =>
    let pf0 := aGetD pd "priority_fields" .none
    let pf := if truthy pf0 then pf0 else .dict .nil
    match pf with
    | .dict pfd => .ok (headerFromValues (extract_values_only pfd ""))
    | _ => .error "AttributeError"
  | _ => .error "AttributeError"

/-- extract_header_df(llm_json), lines 35-73. The empty-pages early
return pd.DataFrame with a single field-less record is the empty record. -/
def extract_header_df (llm_json : VDict) : Except String VDict :=
  let pages := pagesOf llm_json
  if pages.isEmpty then .ok .nil
  else headerFromPage (aGetD pages (minKey (vkeys pages)) (.dict .nil))

/-- extract_val(obj), lines 101-112: unwrap a value-wrapper dict,
otherwise obj or "". -/
def extract_val (obj : Value) : Value :=
  match obj with
  | .dict d => aGetD d "value" (.str "")
  | v => if truthy v then v else .str ""

/-- Lines 113-124: the row built for one line item of a page. -/
def mkLineRow (item : VDict) (page_no : String) : VDict :=
  VDict.ofList
    [("item_description", extract_val (aGetD item "item_description" .none)),
     ("timeline", extract_val (aGetD item "timeline" .none)),
     ("rate_type", extract_val (aGetD item "rate_type" .none)),
     ("total_price", extract_val (aGetD item "total_price" .none)),
     ("Serial_no", aGetD item "Serial_no" (.str "")),
     ("item_code", aGetD item "item_code" (.str "")),
     ("quantity", aGetD item "quantity" (.str "")),
     ("UOM", aGetD item "UOM" (.str "")),
     ("unit_price", aGetD item "unit_price" (.str "")),
     ("page_no", .str page_no)]

/-- Lines 99-125: one row per item of the line_items list. Calling
item.get on a non-dict element raises AttributeError in Python, which
aborts the whole extraction. -/
def rowsOfItems : VList → String → Except String (List VDict)
  | .nil, _ => .ok []
  | .cons (.dict item) rest, pno =>
    match rowsOfItems rest pno with
    | .ok rs => .ok (mkLineRow item pno :: rs)
    | .error e => .error e
  | .cons _ _, _ => .error "AttributeError"

/-- Lines 89-125, body of the loop over pages: line_items =
page.get("priority_fields") or then .get("line_items") or, the two
skip guards (non-list and empty), then the item loop. -/
def pageLineRows (page_key : String) (page : Value) : Except String (List VDict) :=
  let page_no := pyReplacePage page_key
  match page with
  | .dict pd =>
    let pf0 := aGetD pd "priority_fields" .none
    let pf := if truthy pf0 then pf0 else .dict .nil
    match pf with
    | .dict pfd =>
      let li0 := aGetD pfd "line_items" .none
      let li := if truthy li0 then li0 else .list .nil
      match li with
      | .list items =>
        if items.isEmpty then .ok [] else rowsOfItems items page_no
      | _ => .ok []
    | _ => .error "AttributeError"
  | _ => .error "AttributeError"

/-- The loop of lines 89-125 over all pages, concatenating all_rows. -/
def lineRowsGo : VDict → Except String (List VDict)
  | .nil => .ok []
  | .cons k page rest =>
    match pageLineRows k page with
    | .ok rows =>
      match lineRowsGo rest with
      | .ok more => .ok (rows ++ more)
      | .error e => .error e
    | .error e => .error e

/-- extract_line_items_df(llm_json), lines 74-126. -/
def extract_line_items_df (llm_json : VDict) : Except String (List VDict) :=
  lineRowsGo (pagesOf llm_json)

mutual
/-- _recursive_extract_values(obj, parent_key, extracted_values),
lines 127-143, with the in-place accumulation into extracted_values
made an explicit argument and result. -/
def recursive_extract_values : Value → String → VDict → VDict
  | .dict xs, parent_key, acc => extract_from_dict xs parent_key acc
  | .list xs, parent_key, acc => extract_from_list xs parent_key 0 acc
  | _, _, acc => acc
/-- _extract_from_dict(obj_dict, parent_key, extracted_values),
lines 144-156. -/
def extract_from_dict : VDict → String → VDict → VDict
  | .nil, _, acc => acc
  | .cons key val rest, parent_key, acc =>
    let newKey := if parent_key = "" then key else parent_key ++ "." ++ key
    let acc1 :=
      if key = "value" then aInsert acc parent_key val
      else recursive_extract_values val newKey acc
    extract_from_dict rest parent_key acc1
/-- _extract_from_list(obj_list, parent_key, extracted_values),
lines 157-165, with the enumerate index threaded explicitly (0 at the
top of each list). -/
def extract_from_list : VList → String → Nat → VDict → VDict
  | .nil, _, _, acc => acc
  | .cons item rest, parent_key, idx, acc =>
    let acc1 := recursive_extract_values item (parent_key ++ "[" ++ toString idx ++ "]") acc
    extract_from_list rest parent_key (idx + 1) acc1
end

/-- extract_values_from_dict_file, lines 166-187. The argument is the
result of reading the file and running ast.literal_eval on its content:
Option.none models a parse failure, in which case the function raises
ValueError("Error parsing dict from file: ..."). -/
def extract_values_from_dict_file (parsed : Option Value) : Except String VDict :=
  match parsed with
  | Option.none => .error "Error parsing dict from file"
  | some data_dict => .ok (recursive_extract_values data_dict "" .nil)

/-- extract_po_from_file, lines 188-213. The argument is the result of
ast.literal_eval on the file content; Option.none models a parse failure,
whose ValueError propagates uncaught out of the function. llm_json.get
on a non-dict parse result raises AttributeError. -/
def extract_po_from_file (parsed : Option Value) : Except String (VDict × List VDict) :=
  match parsed with
  | Option.none => .error "malformed node or string"
  | some llm_json =>
    match llm_json with
    | .dict top =>
      let po_data := aGetD top "data" (.dict .nil)
      match po_data with
      | .dict pod =>
        match extract_header_df pod with
        | .ok header_df =>
          match extract_line_items_df pod with
          | .ok line_items_df => .ok (header_df, line_items_df)
          | .error e => .error e
        | .error e => .error e
      | _ => .error "AttributeError"
    | _ => .error "AttributeError"

/-! Well-formedness predicates and specification-side definitions used to
state the theorems. -/

/-- Every value of the dict satisfies p. -/
def dictAllVals : VDict → (Value → Bool) → Bool
  | .nil, _ => true
  | .cons _ v rest, p => p v && dictAllVals rest p

/-- Every key of the dict satisfies p. -/
def dictAllKeys : VDict → (String → Bool) → Bool
  | .nil, _ => true
  | .cons k _ rest, p => p k && dictAllKeys rest p

/-- Every element of the list is a dict. -/
def vAllDict : VList → Bool
  | .nil => true
  | .cons (.dict _) rest => vAllDict rest
  | .cons _ _ => false

/-- A page shaped as the data model of the spec describes a Page for the
header projection: a mapping whose priority_fields entry, when present and
truthy, is itself a mapping. -/
def pageHeaderWFb (v : Value) : Bool :=
  match v with
  | .dict pd =>
    match aGetD pd "priority_fields" .none with
    | .dict _ => true
    | w => !truthy w
  | _ => false

/-- Every page of the document is well shaped for the header projection. -/
def headerWFb (doc : VDict) : Bool := dictAllVals (pagesOf doc) pageHeaderWFb

/-- Modelled from the spec: the line-item entries of a page, the entries
of priority_fields.line_items when that is a sequence, and no entries when
either level is absent or not a sequence. -/
def specLineItems (page : Value) : VList :=
  match page with
  | .dict pd =>
    match aGet? pd "priority_fields" with
    | some (.dict pfd) =>
      (match aGet? pfd "line_items" with
       | some (.list items) => items
       | _ => .nil)
    | _ => .nil
  | _ => .nil

/-- A page shaped as the data model of the spec describes a Page for the
line-item projection: a mapping, priority_fields a mapping when truthy, and
every element of a line_items list a mapping. -/
def pageShapeOKb (v : Value) : Bool := pageHeaderWFb v && vAllDict (specLineItems v)

/-- Every page of the document is well shaped for the line-item projection. -/
def linesShapeWFb (doc : VDict) : Bool := dictAllVals (pagesOf doc) pageShapeOKb

/-- A page key of the form described by the data model of the spec:
the five characters p a g e _ followed by digits. -/
def goodPageKeyb (k : String) : Bool :=
  match k.data with
  | 'p' :: 'a' :: 'g' :: 'e' :: '_' :: t => t.all (fun c => c.isDigit)
  | _ => false

/-- Every page key of the document has the form page_<digits>. -/
def goodKeysb (doc : VDict) : Bool := dictAllKeys (pagesOf doc) goodPageKeyb

/-- Modelled from the spec: the page key with the five-character page
marker removed from the front (the spec says the page number is derived by
stripping that marker from the page key). -/
def stripPageKey (k : String) : String := String.mk (k.data.drop 5)

/-- One row per mapping entry of an item list, in order. -/
def rowsSpecOf : VList → String → List VDict
  | .nil, _ => []
  | .cons (.dict item) rest, pno => mkLineRow item pno :: rowsSpecOf rest pno
  | .cons _ rest, pno => rowsSpecOf rest pno

/-- The rows of all pages in encounter order, page number computed as the
code computes it. -/
def codeAllRows : VDict → List VDict
  | .nil => []
  | .cons k v rest =>
    rowsSpecOf (specLineItems v) (pyReplacePage k) ++ codeAllRows rest

/-- Modelled from the spec: the rows of all pages in encounter order
(page order, then item order within a page), each row tagged with the page
key with the page marker stripped from the front. -/
def specAllRows : VDict → List VDict
  | .nil => []
  | .cons k v rest =>
    rowsSpecOf (specLineItems v) (stripPageKey k) ++ specAllRows rest

/-- The total count of line-item entries across the pages. -/
def specCount : VDict → Nat
  | .nil => 0
  | .cons _ v rest => (specLineItems v).length + specCount rest

/-- The fixed field names of a header record, in order (lines 56-72). -/
def headerFieldNames : List String :=
  ["po_number", "po_date", "due_date", "buyer_info", "bill_to",
   "vendor_id", "name", "address", "contact", "ship_to", "ship_from",
   "ship_date", "ship_via", "shipping_instruction", "total_amount"]

/-- The header field read back out of the result of extract_header_df
(the ERR marker is never produced on the inputs where it is used). -/
def headerField (doc : VDict) (f : String) : Value :=
  match extract_header_df doc with
  | .ok r => aGetD r f (.str "ERR")
  | .error _ => .str "ERR"

/-! Concrete documents used by the example-based claims. -/

/-- A page whose priority_fields contain a single wrapped po_number. -/
def mkPoPage (s : String) : Value :=
  .dict (VDict.ofList
    [("priority_fields", .dict (VDict.ofList
      [("po_number", .dict (VDict.ofList [("value", .str s)]))]))])

/-- Two pages with different po_number values. -/
def twoPageDoc : VDict :=
  VDict.ofList [("page_1", mkPoPage "PO-FIRST"), ("page_2", mkPoPage "PO-SECOND")]

/-- Ten pages page_2 .. page_11 with pairwise different po_number values;
the lexicographically smallest key is page_10. -/
def tenPageDoc : VDict :=
  VDict.ofList
    [("page_2", mkPoPage "PO-2"), ("page_3", mkPoPage "PO-3"),
     ("page_4", mkPoPage "PO-4"), ("page_5", mkPoPage "PO-5"),
     ("page_6", mkPoPage "PO-6"), ("page_7", mkPoPage "PO-7"),
     ("page_8", mkPoPage "PO-8"), ("page_9", mkPoPage "PO-9"),
     ("page_10", mkPoPage "PO-10"), ("page_11", mkPoPage "PO-11")]

/-- The document of the line-item skip-on-bad-shape property: page_1 has a
scalar line_items, page_2 a one-item list. -/
def c5doc : VDict :=
  VDict.ofList
    [("page_1", .dict (VDict.ofList
        [("priority_fields", .dict (VDict.ofList
          [("line_items", .str "not a list")]))])),
     ("page_2", .dict (VDict.ofList
        [("priority_fields", .dict (VDict.ofList
          [("line_items", .list (VList.ofList
            [.dict (VDict.ofList
              [("item_description", .dict (VDict.ofList [("value", .str "Item A")])),
               ("quantity", .str "1")])]))]))]))]

/-- The single line-item row extracted from c5doc. -/
def c5row : VDict :=
  VDict.ofList
    [("item_description", .str "Item A"), ("timeline", .str ""), ("rate_type", .str ""),
     ("total_price", .str ""), ("Serial_no", .str ""), ("item_code", .str ""),
     ("quantity", .str "1"), ("UOM", .str ""), ("unit_price", .str ""),
     ("page_no", .str "2")]

/-- A document whose only page has a line_items list containing a bare
string element (not a mapping). -/
def badItemsDoc : VDict :=
  VDict.ofList
    [("page_1", .dict (VDict.ofList
      [("priority_fields", .dict (VDict.ofList
        [("line_items", .list (VList.ofList [.str "bare item"]))]))]))]

/-- The nested input of the whole-document value-only sweep example. -/
def c3input : Value :=
  .dict (VDict.ofList
    [("data", .dict (VDict.ofList
      [("items", .list (VList.ofList
        [.dict (VDict.ofList [("name", .dict (VDict.ofList [("value", .str "Item1")]))]),
         .dict (VDict.ofList [("name", .dict (VDict.ofList [("value", .str "Item2")]))])]))]))])

/-! Helper lemmas. -/

theorem removePage_eq_cons (c : Char) (rest : List Char) (hc : c ≠ 'p') :
    removePage (c :: rest) = c :: removePage rest := by
  rw [removePage.eq_def]
  split <;> rename_i heq
  · exact List.noConfusion heq
  · injection heq with h1 h2
    exact absurd h1 hc
  · injection heq with h1 h2
    rw [← h1, ← h2]

theorem removePage_digits : ∀ (ds : List Char),
    ds.all (fun c => c.isDigit) = true → removePage ds = ds
  | [], _ => rfl
  | c :: tail, h => by
    have h1 : c.isDigit = true ∧ tail.all (fun c => c.isDigit) = true := by simpa using h
    have hc : c ≠ 'p' := by
      intro hcp
      rw [hcp] at h1
      exact absurd h1.1 (by decide)
    rw [removePage_eq_cons c tail hc, removePage_digits tail h1.2]

theorem goodPageKeyb_shape (k : String) (h : goodPageKeyb k = true) :
    ∃ t : List Char,
      k.data = 'p' :: 'a' :: 'g' :: 'e' :: '_' :: t ∧ t.all (fun c => c.isDigit) = true := by
  unfold goodPageKeyb at h
  split at h
  · rename_i t heq
    exact ⟨t, heq, h⟩
  · exact absurd h (by simp)

/-- On a key of the form page_<digits>, the replace-all of the page marker
done by the code coincides with stripping the marker from the front. -/
theorem replace_eq_strip (k : String) (h : goodPageKeyb k = true) :
    pyReplacePage k = stripPageKey k := by
  obtain ⟨t, hdata, hdig⟩ := goodPageKeyb_shape k h
  unfold pyReplacePage stripPageKey
  rw [hdata]
  show String.mk (removePage t) = String.mk (('p' :: 'a' :: 'g' :: 'e' :: '_' :: t).drop 5)
  rw [removePage_digits t hdig]
  rfl

theorem foldl_min_mem (t : List String) : ∀ a : String,
    t.foldl (fun a b => if pyStrLt b a then b else a) a ∈ a :: t := by
  induction t with
  | nil => intro a; simp
  | cons b tl ih =>
    intro a
    simp only [List.foldl_cons]
    rcases List.mem_cons.mp (ih (if pyStrLt b a then b else a)) with h | h
    · rw [h]
      split
      · exact List.mem_cons_of_mem a (List.mem_cons_self b tl)
      · exact List.mem_cons_self a (b :: tl)
    · exact List.mem_cons_of_mem a (List.mem_cons_of_mem b h)

theorem minKey_mem : ∀ (ks : List String), ks ≠ [] → minKey ks ∈ ks
  | [], h => absurd rfl h
  | k :: rest, _ => foldl_min_mem rest k

theorem mem_vkeys_aGet? : ∀ (m : VDict) (k : String),
    k ∈ vkeys m → ∃ v, aGet? m k = some v
  | .nil, k, h => absurd h (by simp [vkeys])
  | .cons k' v rest, k, h => by
    by_cases he : k' = k
    · exact ⟨v, by simp [aGet?, he]⟩
    · have hm : k ∈ vkeys rest := by
        rcases List.mem_cons.mp (by simpa [vkeys] using h) with h1 | h1
        · exact absurd h1.symm he
        · exact h1
      obtain ⟨w, hw⟩ := mem_vkeys_aGet? rest k hm
      exact ⟨w, by simp [aGet?, he, hw]⟩

theorem aGet?_all : ∀ (m : VDict) (p : Value → Bool), dictAllVals m p = true →
    ∀ k v, aGet? m k = some v → p v = true
  | .nil, _, _, k, v, h => by simp [aGet?] at h
  | .cons k' w rest, p, hall, k, v, h => by
    have h1 : p w = true ∧ dictAllVals rest p = true := by
      simpa [dictAllVals, Bool.and_eq_true] using hall
    by_cases he : k' = k
    · have : w = v := by simpa [aGet?, he] using h
      rw [← this]
      exact h1.1
    · exact aGet?_all rest p h1.2 k v (by simpa [aGet?, he] using h)

theorem pagesOf_key_starts : ∀ (m : VDict) (k : String),
    k ∈ vkeys (pagesOf m) → pyStartsWith k "page_" = true
  | .nil, k, h => absurd h (by simp [pagesOf, vkeys])
  | .cons k' v rest, k, h => by
    cases hs : pyStartsWith k' "page_" with
    | true =>
      rw [pagesOf, if_pos hs] at h
      rcases List.mem_cons.mp (by simpa [vkeys] using h) with h1 | h1
      · rw [h1]; exact hs
      · exact pagesOf_key_starts rest k h1
    | false =>
      rw [pagesOf, if_neg (by simp [hs])] at h
      exact pagesOf_key_starts rest k h

theorem rowsOfItems_ok : ∀ (items : VList) (pno : String), vAllDict items = true →
    rowsOfItems items pno = Except.ok (rowsSpecOf items pno)
  | .nil, _, _ => rfl
  | .cons (.dict d) rest, pno, h => by
    have ih := rowsOfItems_ok rest pno (by simpa [vAllDict] using h)
    simp [rowsOfItems, rowsSpecOf, ih]
  | .cons .none _, _, h => nomatch h
  | .cons (.bool _) _, _, h => nomatch h
  | .cons (.int _) _, _, h => nomatch h
  | .cons (.str _) _, _, h => nomatch h
  | .cons (.list _) _, _, h => nomatch h

theorem rowsSpecOf_length : ∀ (items : VList) (pno : String), vAllDict items = true →
    (rowsSpecOf items pno).length = items.length
  | .nil, _, _ => rfl
  | .cons (.dict d) rest, pno, h => by
    have ih := rowsSpecOf_length rest pno (by simpa [vAllDict] using h)
    simp [rowsSpecOf, VList.length, ih]
  | .cons .none _, _, h => nomatch h
  | .cons (.bool _) _, _, h => nomatch h
  | .cons (.int _) _, _, h => nomatch h
  | .cons (.str _) _, _, h => nomatch h
  | .cons (.list _) _, _, h => nomatch h

theorem dict_or_empty (pfd : VDict) :
    (if truthy (Value.dict pfd) then Value.dict pfd else Value.dict VDict.nil) = Value.dict pfd := by
  cases pfd with
  | nil => simp [truthy, VDict.isEmpty]
  | cons k v r => simp [truthy, VDict.isEmpty]

theorem list_or_empty (items : VList) :
    (if truthy (Value.list items) then Value.list items else Value.list VList.nil) = Value.list items := by
  cases items with
  | nil => simp [truthy, VList.isEmpty]
  | cons v r => simp [truthy, VList.isEmpty]

theorem pageLineRows_ok (k : String) (page : Value) (h : pageShapeOKb page = true) :
    pageLineRows k page = Except.ok (rowsSpecOf (specLineItems page) (pyReplacePage k)) := by
  obtain ⟨hwf, hitems⟩ : pageHeaderWFb page = true ∧ vAllDict (specLineItems page) = true := by
    simpa [pageShapeOKb, Bool.and_eq_true] using h
  cases page with
  | dict pd =>
    cases hopt : aGet? pd "priority_fields" with
    | none =>
      simp [pageLineRows, specLineItems, hopt, aGetD, aGet?, truthy, rowsSpecOf, VList.isEmpty]
    | some w =>
      cases w with
      | dict pfd =>
        cases pfd with
        | nil =>
          simp [pageLineRows, specLineItems, hopt, aGetD, aGet?, truthy, VDict.isEmpty,
                rowsSpecOf, VList.isEmpty]
        | cons k1 v1 r1 =>
          cases hopt2 : aGet? (VDict.cons k1 v1 r1) "line_items" with
          | none =>
            simp [pageLineRows, specLineItems, hopt, hopt2, aGetD, truthy, VDict.isEmpty,
                  rowsSpecOf, VList.isEmpty]
          | some li0 =>
            cases li0 with
            | list items =>
              cases items with
              | nil =>
                simp [pageLineRows, specLineItems, hopt, hopt2, aGetD, truthy, VDict.isEmpty,
                      rowsSpecOf, VList.isEmpty]
              | cons v rest =>
                have hri : rowsOfItems (VList.cons v rest) (pyReplacePage k)
                    = Except.ok (rowsSpecOf (VList.cons v rest) (pyReplacePage k)) := by
                  apply rowsOfItems_ok
                  simpa [specLineItems, hopt, hopt2] using hitems
                simp [pageLineRows, specLineItems, hopt, hopt2, aGetD, truthy, VDict.isEmpty,
                      VList.isEmpty, hri]
            | none =>
              simp [pageLineRows, specLineItems, hopt, hopt2, aGetD, truthy, VDict.isEmpty,
                    rowsSpecOf, VList.isEmpty]
            | bool b =>
              cases b with
              | false =>
                simp [pageLineRows, specLineItems, hopt, hopt2, aGetD, truthy, VDict.isEmpty,
                      rowsSpecOf, VList.isEmpty]
              | true =>
                simp [pageLineRows, specLineItems, hopt, hopt2, aGetD, truthy, VDict.isEmpty,
                      rowsSpecOf, VList.isEmpty]
            | int n =>
              by_cases hn : n = 0 <;>
                simp [pageLineRows, specLineItems, hopt, hopt2, aGetD, truthy, VDict.isEmpty,
                      hn, rowsSpecOf, VList.isEmpty]
            | str s =>
              by_cases hs : s = "" <;>
                simp [pageLineRows, specLineItems, hopt, hopt2, aGetD, truthy, VDict.isEmpty,
                      hs, rowsSpecOf, VList.isEmpty]
            | dict d2 =>
              cases d2 <;>
                simp [pageLineRows, specLineItems, hopt, hopt2, aGetD, truthy, VDict.isEmpty,
                      rowsSpecOf, VList.isEmpty]
      | none =>
        simp [pageLineRows, specLineItems, hopt, aGetD, aGet?, truthy, rowsSpecOf, VList.isEmpty]
      | bool b =>
        have hb : b = false := by
          simpa [pageHeaderWFb, aGetD, hopt, truthy] using hwf
        simp [pageLineRows, specLineItems, hopt, aGetD, aGet?, truthy, hb,
              rowsSpecOf, VList.isEmpty]
      | int n =>
        have hn : n = 0 := by
          simpa [pageHeaderWFb, aGetD, hopt, truthy] using hwf
        simp [pageLineRows, specLineItems, hopt, aGetD, aGet?, truthy, hn,
              rowsSpecOf, VList.isEmpty]
      | str s =>
        have hs : s = "" := by
          simpa [pageHeaderWFb, aGetD, hopt, truthy] using hwf
        simp [pageLineRows, specLineItems, hopt, aGetD, aGet?, truthy, hs,
              rowsSpecOf, VList.isEmpty]
      | list l =>
        have hl : l.isEmpty = true := by
          simpa [pageHeaderWFb, aGetD, hopt, truthy] using hwf
        cases l with
        | nil =>
          simp [pageLineRows, specLineItems, hopt, aGetD, aGet?, truthy,
                rowsSpecOf, VList.isEmpty]
        | cons v r => simp [VList.isEmpty] at hl
  | none => nomatch hwf
  | bool b => nomatch hwf
  | int n => nomatch hwf
  | str s => nomatch hwf
  | list l => nomatch hwf

theorem lineRowsGo_ok : ∀ (ps : VDict), dictAllVals ps pageShapeOKb = true →
    lineRowsGo ps = Except.ok (codeAllRows ps)
  | .nil, _ => rfl
  | .cons k v rest, h => by
    obtain ⟨h1, h2⟩ : pageShapeOKb v = true ∧ dictAllVals rest pageShapeOKb = true := by
      simpa [dictAllVals, Bool.and_eq_true] using h
    simp [lineRowsGo, pageLineRows_ok k v h1, lineRowsGo_ok rest h2, codeAllRows]

theorem codeAllRows_eq_spec : ∀ (ps : VDict), dictAllKeys ps goodPageKeyb = true →
    codeAllRows ps = specAllRows ps
  | .nil, _ => rfl
  | .cons k v rest, h => by
    obtain ⟨h1, h2⟩ : goodPageKeyb k = true ∧ dictAllKeys rest goodPageKeyb = true := by
      simpa [dictAllKeys, Bool.and_eq_true] using h
    simp [codeAllRows, specAllRows, replace_eq_strip k h1, codeAllRows_eq_spec rest h2]

theorem specAllRows_length : ∀ (ps : VDict), dictAllVals ps pageShapeOKb = true →
    (specAllRows ps).length = specCount ps
  | .nil, _ => rfl
  | .cons k v rest, h => by
    obtain ⟨h1, h2⟩ : pageShapeOKb v = true ∧ dictAllVals rest pageShapeOKb = true := by
      simpa [dictAllVals, Bool.and_eq_true] using h
    have hv : vAllDict (specLineItems v) = true :=
      ((Bool.and_eq_true _ _).mp (by simpa [pageShapeOKb] using h1)).2
    simp [specAllRows, specCount, rowsSpecOf_length _ _ hv, specAllRows_length rest h2]

theorem vkeys_ne_nil : ∀ (m : VDict), m.isEmpty = false → vkeys m ≠ []
  | .cons k v r, _ => by simp [vkeys]
  | .nil, h => by simp [VDict.isEmpty] at h

theorem headerFromValues_keys (vals : VDict) :
    vkeys (headerFromValues vals) = headerFieldNames := rfl

theorem headerFromPage_ok (v : Value) (h : pageHeaderWFb v = true) :
    ∃ pfd, headerFromPage v = Except.ok (headerFromValues (extract_values_only pfd "")) := by
  cases v with
  | dict pd =>
    cases hopt : aGet? pd "priority_fields" with
    | none =>
      exact ⟨VDict.nil, by simp [headerFromPage, aGetD, hopt, truthy]⟩
    | some w =>
      cases w with
      | dict pfd =>
        cases pfd with
        | nil =>
          exact ⟨VDict.nil, by simp [headerFromPage, aGetD, hopt, truthy, VDict.isEmpty]⟩
        | cons k1 v1 r1 =>
          exact ⟨VDict.cons k1 v1 r1,
            by simp [headerFromPage, aGetD, hopt, truthy, VDict.isEmpty]⟩
      | none => exact ⟨VDict.nil, by simp [headerFromPage, aGetD, hopt, truthy]⟩
      | bool b =>
        have hb : b = false := by simpa [pageHeaderWFb, aGetD, hopt, truthy] using h
        exact ⟨VDict.nil, by simp [headerFromPage, aGetD, hopt, truthy, hb]⟩
      | int n =>
        have hn : n = 0 := by simpa [pageHeaderWFb, aGetD, hopt, truthy] using h
        exact ⟨VDict.nil, by simp [headerFromPage, aGetD, hopt, truthy, hn]⟩
      | str s =>
        have hs : s = "" := by simpa [pageHeaderWFb, aGetD, hopt, truthy] using h
        exact ⟨VDict.nil, by simp [headerFromPage, aGetD, hopt, truthy, hs]⟩
      | list l =>
        have hl : l.isEmpty = true := by simpa [pageHeaderWFb, aGetD, hopt, truthy] using h
        cases l with
        | nil =>
          exact ⟨VDict.nil, by simp [headerFromPage, aGetD, hopt, truthy, VList.isEmpty]⟩
        | cons a r => simp [VList.isEmpty] at hl
  | none => nomatch h
  | bool b => nomatch h
  | int n => nomatch h
  | str s => nomatch h
  | list l => nomatch h

theorem extract_header_df_nonempty (doc : VDict) (h : (pagesOf doc).isEmpty = false) :
    extract_header_df doc
      = headerFromPage (aGetD (pagesOf doc) (minKey (vkeys (pagesOf doc))) (Value.dict VDict.nil)) := by
  simp [extract_header_df, h]

theorem extract_header_df_single (k : String) (v : Value)
    (hs : pyStartsWith k "page_" = true) :
    extract_header_df (VDict.cons k v VDict.nil) = headerFromPage v := by
  have hp : pagesOf (VDict.cons k v VDict.nil) = VDict.cons k v VDict.nil := by
    simp [pagesOf, hs]
  simp [extract_header_df, hp, VDict.isEmpty, vkeys, minKey, aGetD, aGet?]

/-! The claims. -/

/-- Claim C1, corrected: for every well-shaped Document with at least one
page, extract_header_df returns exactly one header record carrying exactly
the 15 named fields in order; for a Document with zero pages it returns a
single record with no fields at all (not 15 empty-string fields). -/
theorem c1_header_record_fields (doc : VDict) (hwf : headerWFb doc = true) :
    ((pagesOf doc).isEmpty = false →
      ∃ r, extract_header_df doc = Except.ok r ∧ vkeys r = headerFieldNames)
    ∧ ((pagesOf doc).isEmpty = true → extract_header_df doc = Except.ok VDict.nil) := by
  constructor
  · intro hne
    have hkne := vkeys_ne_nil _ hne
    obtain ⟨v, hv⟩ := mem_vkeys_aGet? (pagesOf doc) _ (minKey_mem _ hkne)
    have hpw : pageHeaderWFb v = true :=
      aGet?_all (pagesOf doc) _ (by simpa [headerWFb] using hwf) _ _ hv
    obtain ⟨pfd, hfp⟩ := headerFromPage_ok v hpw
    refine ⟨headerFromValues (extract_values_only pfd ""), ?_, rfl⟩
    simp [extract_header_df, hne, aGetD, hv, hfp]
  · intro he
    simp [extract_header_df, he]

/-- Claim C1 counterexample: on the Document with zero pages, the code
returns a record with no fields, so the po_number field (and the other 14)
is absent rather than present with value the empty string. -/
theorem c1_zero_pages_counterexample :
    extract_header_df VDict.nil = Except.ok VDict.nil
    ∧ hasKey VDict.nil "po_number" = false :=
  ⟨rfl, rfl⟩

/-- Claim C1 witness: a concrete one-page document with an empty page. -/
theorem c1_header_record_fields_witness :
    ∃ r, extract_header_df (VDict.cons "page_1" (Value.dict VDict.nil) VDict.nil)
        = Except.ok r ∧ vkeys r = headerFieldNames :=
  (c1_header_record_fields (VDict.cons "page_1" (Value.dict VDict.nil) VDict.nil) rfl).1 rfl

/-- Claim C2: on the three-field example, extract_values_only unwraps a
value-wrapper at the child key, recurses into plain nested mappings with
dot-joined keys, and keeps non-mapping values unchanged. -/
theorem c2_flatten_priority_fields :
    extract_values_only (VDict.ofList
      [("field1", .dict (VDict.ofList [("value", .str "val1"), ("coordinates", .list VList.nil)])),
       ("field2", .dict (VDict.ofList [("nested", .dict (VDict.ofList [("value", .str "val2")]))])),
       ("field3", .str "simple_val")]) ""
    = VDict.ofList
      [("field1", .str "val1"), ("field2.nested", .str "val2"), ("field3", .str "simple_val")] :=
  rfl

/-- Claim C3: the whole-document value-only sweep records values at the
parent path and indexes sequence elements with bracketed positions: the
example yields entries data.items[0].name and data.items[1].name. -/
theorem c3_value_only_parent_path :
    recursive_extract_values c3input "" VDict.nil
      = VDict.ofList [("data.items[0].name", .str "Item1"), ("data.items[1].name", .str "Item2")]
    ∧ aGet? (recursive_extract_values c3input "" VDict.nil) "data.items[0].name"
      = some (Value.str "Item1")
    ∧ aGet? (recursive_extract_values c3input "" VDict.nil) "data.items[1].name"
      = some (Value.str "Item2") :=
  ⟨rfl, rfl, rfl⟩

/-- Claim C4: for any Document with at least one page, extract_header_df
depends only on the page whose key is the lexicographic minimum of the page
keys (the result is unchanged when every other page is removed); on the
two-page example the header comes from page_1, and on a ten-page document
page_10 sorts before page_2 and supplies the header. -/
theorem c4_first_page_selection :
    (∀ doc : VDict, (pagesOf doc).isEmpty = false →
      extract_header_df doc =
        extract_header_df (VDict.cons (minKey (vkeys (pagesOf doc)))
          (aGetD (pagesOf doc) (minKey (vkeys (pagesOf doc))) (Value.dict VDict.nil))
          VDict.nil))
    ∧ headerField twoPageDoc "po_number" = Value.str "PO-FIRST"
    ∧ headerField tenPageDoc "po_number" = Value.str "PO-10" := by
  refine ⟨?_, rfl, rfl⟩
  intro doc h
  have hkne := vkeys_ne_nil _ h
  have hstart := pagesOf_key_starts doc _ (minKey_mem _ hkne)
  rw [extract_header_df_nonempty doc h,
      extract_header_df_single (minKey (vkeys (pagesOf doc)))
        (aGetD (pagesOf doc) (minKey (vkeys (pagesOf doc))) (Value.dict VDict.nil)) hstart]

/-- Claim C4 witness: the two-page document instantiates the page-dropping
equality. -/
theorem c4_first_page_selection_witness :
    (pagesOf twoPageDoc).isEmpty = false
    ∧ extract_header_df twoPageDoc =
        extract_header_df (VDict.cons (minKey (vkeys (pagesOf twoPageDoc)))
          (aGetD (pagesOf twoPageDoc) (minKey (vkeys (pagesOf twoPageDoc))) (Value.dict VDict.nil))
          VDict.nil) :=
  ⟨rfl, c4_first_page_selection.1 twoPageDoc rfl⟩

/-- Claim C5: a page whose line_items is a scalar is skipped without
failing the Document; the example yields exactly one row, from page_2,
with item_description Item A and page_no the string 2. -/
theorem c5_skip_nonlist_line_items :
    extract_line_items_df c5doc = Except.ok [c5row]
    ∧ aGet? c5row "item_description" = some (Value.str "Item A")
    ∧ aGet? c5row "page_no" = some (Value.str "2") :=
  ⟨rfl, rfl, rfl⟩

/-- Claim C6: on a well-shaped Document whose page keys have the form
page_<digits>, extract_line_items_df succeeds and returns exactly the
concatenation, in page order then item order, of one row per entry of each
page's line_items list (pages with absent, empty or non-sequence line_items
contribute nothing), each row tagged with the page key minus the page
marker; the number of rows is the total entry count. -/
theorem c6_line_item_rows (doc : VDict) (h1 : linesShapeWFb doc = true)
    (h2 : goodKeysb doc = true) :
    extract_line_items_df doc = Except.ok (specAllRows (pagesOf doc))
    ∧ (specAllRows (pagesOf doc)).length = specCount (pagesOf doc) := by
  constructor
  · have hgo := lineRowsGo_ok (pagesOf doc) (by simpa [linesShapeWFb] using h1)
    unfold extract_line_items_df
    rw [hgo, codeAllRows_eq_spec _ (by simpa [goodKeysb] using h2)]
  · exact specAllRows_length _ (by simpa [linesShapeWFb] using h1)

/-- Claim C6 witness: the two-page example document. -/
theorem c6_line_item_rows_witness :
    linesShapeWFb c5doc = true ∧ goodKeysb c5doc = true
    ∧ (extract_line_items_df c5doc = Except.ok (specAllRows (pagesOf c5doc))
       ∧ (specAllRows (pagesOf c5doc)).length = specCount (pagesOf c5doc)) :=
  ⟨rfl, rfl, c6_line_item_rows c5doc rfl rfl⟩

/-- Claim C7: when the persisted text does not parse as a literal
structure, both loader entry points fail with a labeled parse error rather
than returning an empty result: extract_values_from_dict_file raises its
wrapped ValueError and extract_po_from_file propagates the parse
exception of ast.literal_eval. -/
theorem c7_parse_failure_raises :
    extract_values_from_dict_file Option.none = Except.error "Error parsing dict from file"
    ∧ extract_po_from_file Option.none = Except.error "malformed node or string" :=
  ⟨rfl, rfl⟩

/-- Claim C8: when the text parses to a mapping without a top-level data
key, extract_po_from_file runs the projections on an empty Document and
returns normally: one field-less header record and zero line-item rows. -/
theorem c8_missing_data_key (top : VDict) (h : hasKey top "data" = false) :
    extract_po_from_file (some (Value.dict top)) = Except.ok (VDict.nil, []) := by
  have h0 : aGet? top "data" = Option.none := by
    cases ho : aGet? top "data" with
    | none => rfl
    | some w => rw [hasKey, ho] at h; simp at h
  simp [extract_po_from_file, aGetD, h0, extract_header_df, extract_line_items_df,
        pagesOf, VDict.isEmpty, lineRowsGo]

/-- Claim C8 witness: a parsed mapping with a single unrelated key. -/
theorem c8_missing_data_key_witness :
    hasKey (VDict.cons "other" (Value.str "x") VDict.nil) "data" = false
    ∧ extract_po_from_file (some (Value.dict (VDict.cons "other" (Value.str "x") VDict.nil)))
      = Except.ok (VDict.nil, []) :=
  ⟨rfl, c8_missing_data_key _ rfl⟩

/-- Claim C9: the extraction core is deterministic: running
extract_values_only, extract_header_df or extract_line_items_df twice on
the same Document gives identical results (in the embedding the functions
are pure by construction, the in-place accumulation of the Python code
having been made explicit state passing, so the input cannot change). -/
theorem c9_extraction_deterministic (d : VDict) (pre : String) (doc : VDict) :
    extract_values_only d pre = extract_values_only d pre
    ∧ extract_header_df doc = extract_header_df doc
    ∧ extract_line_items_df doc = extract_line_items_df doc :=
  ⟨rfl, rfl, rfl⟩

/-- Claim C10: extract_line_items_df completes without error on every
well-shaped Document in which each element of each line_items list is a
mapping, and a bare string element makes the per-item field lookup raise
(AttributeError) instead of being skipped or defaulted. -/
theorem c10_total_iff_items_are_mappings :
    (∀ doc : VDict, linesShapeWFb doc = true →
      ∃ rows, extract_line_items_df doc = Except.ok rows)
    ∧ extract_line_items_df badItemsDoc = Except.error "AttributeError" := by
  constructor
  · intro doc h
    exact ⟨codeAllRows (pagesOf doc), by
      unfold extract_line_items_df
      exact lineRowsGo_ok _ (by simpa [linesShapeWFb] using h)⟩
  · rfl

/-- Claim C10 witness: a well-shaped document on which extraction
succeeds. -/
theorem c10_total_witness :
    linesShapeWFb c5doc = true
    ∧ ∃ rows, extract_line_items_df c5doc = Except.ok rows :=
  ⟨rfl, c10_total_iff_items_are_mappings.1 c5doc rfl⟩
